import Mathlib

/-!
# Verification of the sleep-report normalization and analytics engine

Shallow embedding of the core data transforms of `src/lib/report-generator.ts`
(summary normalization, epoch flattening, wake-episode detection, timing
layout, statistics extraction, severity classification), together with
theorems settling the specification claims about them.

JavaScript numbers are modelled as exact rationals (`ℚ`) plus an explicit
`NaN`; the JS value states relevant to the code under study (`number`,
`NaN`, `null`, `undefined`) are captured by the `JVal` type.  Timestamps and
`Date` objects are modelled as integer epoch seconds (the code constructs
every date as `new Date(timestamp * 1000)` and only ever compares them or
subtracts them, so the seconds scale is faithful).
-/

namespace WithingsReport

/-- A JavaScript value as it occurs in the data rows processed by
`report-generator.ts`: a genuine number, `NaN` (which also has
`typeof === 'number'`), `null`, or `undefined`.  String-valued metric cells
do not occur in the flows under study (the CSV reader runs with
`dynamicTyping: true`, converting numeric cells to numbers and empty cells
to `null`; API JSON carries numbers). -/
inductive JVal : Type
  | num (q : ℚ)
  | nan
  | null
  | undefined
  deriving DecidableEq, Repr

/-- JS `Number(v)` coercion on the modelled value states:
numbers are unchanged, `Number(NaN) = NaN`, `Number(null) = 0`,
`Number(undefined) = NaN`. -/
def toNumber : JVal → JVal
  | .num q => .num q
  | .nan => .nan
  | .null => .num 0
  | .undefined => .nan

/-- JS global `isNaN(v)` (coerces with `Number` first). -/
def jsIsNaN (v : JVal) : Bool :=
  match toNumber v with
  | .nan => true
  | _ => false

/-- JS truthiness of the modelled values: a number is truthy iff nonzero;
`NaN`, `null` and `undefined` are falsy. -/
def truthy : JVal → Bool
  | .num q => q ≠ 0
  | _ => false

/-- JS `a || b`. -/
def jsOr (a b : JVal) : JVal := if truthy a then a else b

/-- JS `v / d` for a constant nonzero divisor `d`: the left operand is
coerced with `Number`; any non-number yields `NaN`. -/
def jsDiv (v : JVal) (d : ℚ) : JVal :=
  match toNumber v with
  | .num q => .num (q / d)
  | _ => .nan

/-- JS `v * c` for a constant factor `c`. -/
def jsMul (v : JVal) (c : ℚ) : JVal :=
  match toNumber v with
  | .num q => .num (q * c)
  | _ => .nan

/-- JS `typeof v === 'number'` — true for genuine numbers and for `NaN`. -/
def isNumberType : JVal → Bool
  | .num _ => true
  | .nan => true
  | _ => false

/-- A data row: a finite JS object modelled as a total map from key to
`JVal` (`undefined` for absent keys). -/
def Row : Type := String → JVal

/-! ## Summary Normalizer (`processSummaryData`, lines 112–116)

The derived metric fields computed once per normalized row. -/

/-- `total_sleep_time_hours = typeof row.total_sleep_time === 'number' ?
row.total_sleep_time / 3600 : null`. -/
def total_sleep_time_hours (row : Row) : JVal :=
  if isNumberType (row "total_sleep_time") then jsDiv (row "total_sleep_time") 3600 else .null

/-- `sleep_efficiency_percent = typeof row.sleep_efficiency === 'number' ?
row.sleep_efficiency * 100 : null`. -/
def sleep_efficiency_percent (row : Row) : JVal :=
  if isNumberType (row "sleep_efficiency") then jsMul (row "sleep_efficiency") 100 else .null

/-- `snoring_minutes = typeof row.snoring === 'number' ? row.snoring / 60 : null`. -/
def snoring_minutes (row : Row) : JVal :=
  if isNumberType (row "snoring") then jsDiv (row "snoring") 60 else .null

/-- `_raw_apnea_hypopnea_index = isNaN(Number(row.apnea_hypopnea_index)) ?
-1 : Number(row.apnea_hypopnea_index)`. -/
def apnea_hypopnea_index_raw (row : Row) : JVal :=
  if jsIsNaN (row "apnea_hypopnea_index") then .num (-1)
  else toNumber (row "apnea_hypopnea_index")

/-- `apnea_hypopnea_index = _raw_apnea_hypopnea_index >= 0 ?
_raw_apnea_hypopnea_index : null` (JS `NaN >= 0` is false). -/
def apnea_hypopnea_index_norm (row : Row) : JVal :=
  match apnea_hypopnea_index_raw row with
  | .num q => if 0 ≤ q then .num q else .null
  | _ => .null

/-! ## Report entry guard (`generateReport`, lines 449–451)

`generateReport` begins by validating its normalized-summary input; the
`Except` value records whether the function throws there or proceeds to
build the report. -/

/-- The input check at the top of `generateReport`:
`if (summaryData.length === 0) throw new Error("No data found for this user
to generate a report.")`. -/
def generateReportGuard (summaryData : List Row) : Except String Unit :=
  if summaryData.length = 0 then
    .error "No data found for this user to generate a report."
  else
    .ok ()

/-! ## Statistics Engine: metric extraction

`renderMetricsTable` (line 1341): for each metric field it takes
`row['w_' + field] !== undefined ? row['w_' + field] : row[field]` and keeps
only values with `typeof v === 'number' && !isNaN(v)`.

`renderSummaryStats` (lines 931–934): the headline lists use
`(d.w_<field> || d.<field>)`, optionally scaled, filtered by
`v => v !== null && !isNaN(v)`. -/

/-- The per-metric field table `ALL_DATA_FIELDS` (lines 6–19). -/
def ALL_DATA_FIELDS : List String :=
  ["total_timeinbed", "total_sleep_time", "asleepduration",
   "lightsleepduration", "remsleepduration", "deepsleepduration",
   "sleep_efficiency", "sleep_latency", "wakeup_latency",
   "wakeupduration", "waso",
   "nb_rem_episodes", "apnea_hypopnea_index", "withings_index",
   "durationtosleep", "durationtowakeup", "out_of_bed_count",
   "hr_average", "hr_min", "hr_max",
   "rr_average", "rr_min", "rr_max",
   "snoring", "snoringepisodecount", "sleep_score",
   "night_events", "mvt_score_avg", "mvt_active_duration",
   "chest_movement_rate_average", "chest_movement_rate_min", "chest_movement_rate_max",
   "breathing_sounds", "breathing_sounds_episode_count"]

/-- `renderMetricsTable` value extraction for one row and field:
`row['w_' + field] !== undefined ? row['w_' + field] : row[field]`. -/
def extractMetric (row : Row) (field : String) : JVal :=
  if row ("w_" ++ field) ≠ .undefined then row ("w_" ++ field) else row field

/-- The per-field value list aggregated by `renderMetricsTable`:
`validData.map(row => ...).filter(v => typeof v === 'number' && !isNaN(v))`. -/
def metricValues (rows : List Row) (field : String) : List JVal :=
  (rows.map (fun r => extractMetric r field)).filter
    (fun v => isNumberType v && !jsIsNaN v)

/-- `renderSummaryStats` duration list:
`data.map(d => (d.w_total_sleep_time || d.total_sleep_time) / 3600)
  .filter(v => v !== null && !isNaN(v))`. -/
def summaryDurations (rows : List Row) : List JVal :=
  (rows.map (fun d => jsDiv (jsOr (d "w_total_sleep_time") (d "total_sleep_time")) 3600)).filter
    (fun v => v ≠ .null && !jsIsNaN v)

/-- `renderSummaryStats` AHI list:
`data.map(d => (d.w_apnea_hypopnea_index || d.apnea_hypopnea_index))
  .filter(v => v !== null && !isNaN(v))`. -/
def summaryAhis (rows : List Row) : List JVal :=
  (rows.map (fun d => jsOr (d "w_apnea_hypopnea_index") (d "apnea_hypopnea_index"))).filter
    (fun v => v ≠ .null && !jsIsNaN v)

/-! ## Severity classifiers (`getOSASeverityAndColor`,
`getSnoringSeverityAndColor`, lines 1760–1773) -/

/-- OSA severity from AHI. -/
def getOSASeverityAndColor (ahi : ℚ) : String × String :=
  if ahi ≤ 5 then ("None/Minimal", "green")
  else if ahi ≤ 15 then ("Mild", "yellow")
  else if ahi ≤ 30 then ("Moderate", "orange")
  else ("Severe", "red")

/-- Snoring severity from snoring minutes. -/
def getSnoringSeverityAndColor (snoring : ℚ) : String × String :=
  if snoring = 0 then ("No Snoring", "green")
  else if snoring ≤ 15 then ("Mild", "yellow")
  else if snoring ≤ 30 then ("Moderate", "goldenrod")
  else if snoring ≤ 60 then ("Heavy", "orange")
  else ("Severe", "red")

/-! ## Wake-Episode Detector (`findWakeEpisodes`, lines 833–907)

One night's epoch rows carry `timestamp` (epoch seconds) and the numeric
sleep `state`; the episode endpoints are the rows' `date` objects, i.e. the
same instants (`date = new Date(timestamp * 1000)`), so both are modelled by
the integer seconds value `ts`.  The function first sorts a night's rows by
`timestamp`; the theorems below take the sorted row list. -/

/-- One epoch row as seen by `findWakeEpisodes`. -/
structure ERow : Type where
  ts : ℤ
  state : ℤ
  deriving DecidableEq, Repr

/-- One retained wake episode (`{id, start, end, durationSec}`; the night id
is fixed per call here, so only the interval is carried). -/
structure WakeEpisode : Type where
  start : ℤ
  stop : ℤ
  durationSec : ℤ
  deriving DecidableEq, Repr

/-- Clipping and thresholding of one provisional episode `[s, e]` against
the night interval `[ns, ne]`:
`clippedStart = episodeStart < night.start ? night.start : episodeStart`,
`clippedEnd = episodeEnd > night.end ? night.end : episodeEnd`,
retained iff `duration >= 600`. -/
def mkClippedEpisode (ns ne s e : ℤ) : List WakeEpisode :=
  let clippedStart := if s < ns then ns else s
  let clippedEnd := if e > ne then ne else e
  let duration := clippedEnd - clippedStart
  if 600 ≤ duration then [⟨clippedStart, clippedEnd, duration⟩] else []

/-- The left-to-right scan of `findWakeEpisodes` over one night's sorted
rows.  The accumulator mirrors the mutable `start` variable: `none` when no
run is open, `some (s, p)` when a run opened at timestamp `s` and the row
last processed (necessarily awake) had timestamp `p`.  A non-awake row
closes the run at the previous row's timestamp (`rows[i - 1].date`); an open
run at the end of the list is flushed at the last row's timestamp
(`rows[rows.length - 1].date`). -/
def fweGo (ns ne : ℤ) : Option (ℤ × ℤ) → List ERow → List WakeEpisode
  | none, [] => []
  | some sp, [] => mkClippedEpisode ns ne sp.1 sp.2
  | none, r :: rest =>
    if r.state = 0 then fweGo ns ne (some (r.ts, r.ts)) rest
    else fweGo ns ne none rest
  | some sp, r :: rest =>
    if r.state = 0 then fweGo ns ne (some (sp.1, r.ts)) rest
    else mkClippedEpisode ns ne sp.1 sp.2 ++ fweGo ns ne none rest

/-- `findWakeEpisodes` restricted to one night with interval `[ns, ne]`,
applied to its timestamp-sorted rows. -/
def findWakeEpisodesNight (ns ne : ℤ) (rows : List ERow) : List WakeEpisode :=
  fweGo ns ne none rows

/-- Awake predicate: `r.state === 0`. -/
def isAwake (r : ERow) : Bool := r.state = 0

/-- Specification-side decomposition of a row list into its maximal
contiguous runs of awake rows (spec §4.3: "a maximal run of consecutive
samples with `state == awake`"). -/
def awakeRuns : List ERow → List (List ERow)
  | [] => []
  | r :: rest =>
    if r.state = 0 then
      (r :: rest.takeWhile isAwake) :: awakeRuns (rest.dropWhile isAwake)
    else awakeRuns rest
  termination_by l => l.length
  decreasing_by
    · simpa using Nat.lt_succ_of_le (List.dropWhile_sublist isAwake).length_le
    · simp

/-- Timestamp of the last row of a list, with default `d` for the empty
list. -/
def lastTs (d : ℤ) : List ERow → ℤ
  | [] => d
  | r :: l => lastTs r.ts l

/-- The episode candidate one maximal awake run contributes: the interval
from the run's first to its last timestamp, clipped and thresholded. -/
def runEpisode (ns ne : ℤ) : List ERow → List WakeEpisode
  | [] => []
  | r :: l => mkClippedEpisode ns ne r.ts (lastTs r.ts l)

/-! ## Timing Layout Builder (`mins_from_noon_js`, lines 977–989, and
`renderHorizontalSleepTimingPlot`, lines 1007–1037)

The local wall-clock `(hour, minute)` of an instant comes from
`Intl.DateTimeFormat` with `hourCycle: 'h23'`; with timezone application
disabled the target zone is UTC, where the hour and minute of epoch second
`t ≥ 0` are `(t / 3600) % 24` and `(t / 60) % 60`.  JS `%` on numbers is a
truncating remainder, i.e. `Int.tmod`. -/

/-- `mins_from_noon_js` core formula:
`(((hour * 60 + minute) - 720) + 1440) % 1440` (JS truncating `%`). -/
def minsFromNoon (hour minute : ℤ) : ℤ :=
  Int.tmod (((hour * 60 + minute) - 720) + 1440) 1440

/-- `mins_from_noon_js` for an instant given as nonnegative epoch seconds,
in the UTC zone (the code path with timezone application disabled). -/
def instantMinsFromNoon (t : ℕ) : ℤ :=
  minsFromNoon ((t / 3600) % 24 : ℕ) ((t / 60) % 60 : ℕ)

/-- The night bar of `renderHorizontalSleepTimingPlot`:
`base = mins_from_noon(start)`, `endRaw = mins_from_noon(end)`,
`end = endRaw < base ? endRaw + 1440 : endRaw`, `duration = end - base`. -/
def nightDurationMinutes (startSec endSec : ℕ) : ℤ :=
  let base := instantMinsFromNoon startSec
  let endRaw := instantMinsFromNoon endSec
  (if endRaw < base then endRaw + 1440 else endRaw) - base

/-! ## Epoch Flattener (`processEpochData`, lines 149–204)

A raw epoch record is `{sleep_id, series}`; each series segment has a sleep
`state` and sparse per-metric timestamp maps.  A JS object's own enumerable
string keys are modelled as an association list in enumeration (insertion)
order; the timestamp keys are modelled as the integers they denote (the
data model fixes them to be timestamp-strings, on which
`parseInt(tsStr, 10)` succeeds and round-trips). -/

/-- One sparse metric map: object entries `timestamp → number` in
enumeration order. -/
abbrev TsMap : Type := List (ℤ × ℚ)

/-- One epoch series segment: the sleep `state` plus the segment's metric
entries (`hr`, `rr`, …) in object enumeration order.  The `state` key itself
is a number, never an object, so it can never be chosen as reference field
and is kept apart. -/
structure Segment : Type where
  state : ℤ
  fields : List (String × TsMap)
  deriving DecidableEq, Repr

/-- One raw epoch record. -/
structure EpochRecord : Type where
  sleep_id : ℤ
  series : List Segment
  deriving DecidableEq, Repr

/-- The summary fields `processEpochData` reads through its `summaryMap`
(`night_events` is an opaque pass-through and is omitted). -/
structure PSRow : Type where
  id : ℤ
  timezone : String
  deriving DecidableEq, Repr

/-- One flattened `EpochSample` row (`datetime_utc` is determined by
`timestamp` and `night_events` is an opaque pass-through; both omitted). -/
structure EpochSample : Type where
  id : ℤ
  timezone : String
  timestamp : ℤ
  state : ℤ
  vals : List (String × Option ℚ)
  deriving DecidableEq, Repr

/-- The per-sample metric field list `dataFields` (line 155). -/
def dataFields : List String :=
  ["hr", "rr", "snoring", "sdnn_1", "rmssd", "mvt_score",
   "chest_movement_rate", "withings_index", "breathing_sounds"]

/-- Object property access `seriesItem[field]` for a metric field. -/
def lookupField (seg : Segment) (f : String) : Option TsMap :=
  (seg.fields.find? (fun kv => kv.1 = f)).map (fun kv => kv.2)

/-- Map access `fieldData[tsStr]`. -/
def assocTs (m : TsMap) (ts : ℤ) : Option ℚ :=
  (m.find? (fun kv => kv.1 = ts)).map (fun kv => kv.2)

/-- The value stored for metric `f` at timestamp `ts`:
`fieldData && typeof fieldData === 'object' && fieldData[tsStr] !== undefined
? fieldData[tsStr] : null`. -/
def valueAt (seg : Segment) (f : String) (ts : ℤ) : Option ℚ :=
  match lookupField seg f with
  | some m => assocTs m ts
  | none => none

/-- Reference-field selection (lines 165–171): the first key in enumeration
order that is a known metric field whose map is a non-empty object. -/
def refFieldOf (seg : Segment) : Option (String × TsMap) :=
  seg.fields.find? (fun kv => dataFields.contains kv.1 && !kv.2.isEmpty)

/-- One emitted `EpochSample` (lines 180–196): carries the night id and
timezone, the segment state, and for every known metric field that field's
value at `ts` or null. -/
def mkSample (id : ℤ) (tz : String) (state : ℤ) (seg : Segment) (ts : ℤ) : EpochSample :=
  ⟨id, tz, ts, state, dataFields.map (fun f => (f, valueAt seg f ts))⟩

/-- Flattening of one segment: no reference field means no samples;
otherwise one sample per timestamp key of the reference field. -/
def processSegment (id : ℤ) (tz : String) (seg : Segment) : List EpochSample :=
  match refFieldOf seg with
  | none => []
  | some kv => kv.2.map (fun p => mkSample id tz seg.state seg p.1)

/-- The `summaryMap` lookup (line 150): a JS `Map` built from
`summaryData.map(s => [s.id, ...])` keeps the last entry per key. -/
def summaryLookup (summaryData : List PSRow) (id : ℤ) : Option PSRow :=
  summaryData.reverse.find? (fun s => s.id = id)

/-- One iteration of the record loop of `processEpochData`: a record whose
`sleep_id` has no summary row is skipped (`if (!summaryInfo) continue`);
otherwise every segment of its series is flattened. -/
def processRecord (summaryData : List PSRow) (record : EpochRecord) : List EpochSample :=
  match summaryLookup summaryData record.sleep_id with
  | none => []
  | some s => (record.series.map (processSegment record.sleep_id s.timezone)).flatten

/-- `processEpochData`: all samples of all records, concatenated in order. -/
def processEpochData (epochRecords : List EpochRecord) (summaryData : List PSRow) :
    List EpochSample :=
  (epochRecords.map (processRecord summaryData)).flatten

/-! ## Concrete rows used to instantiate the theorems -/

/-- Scenario A row: `total_sleep_time = 25200`, `sleep_efficiency = 0.89`. -/
def rowScenarioA : Row := fun k =>
  if k = "total_sleep_time" then .num 25200
  else if k = "sleep_efficiency" then .num (89 / 100)
  else .undefined

/-- A row whose `apnea_hypopnea_index` cell is an explicit JS `null`
(e.g. an empty CSV cell under `dynamicTyping`). -/
def rowNullAhi : Row := fun k =>
  if k = "apnea_hypopnea_index" then .null else .undefined

/-- A row carrying both the prefixed and the unprefixed sleep-time key with
different numeric values. -/
def rowBothKeys : Row := fun k =>
  if k = "w_total_sleep_time" then .num 7200
  else if k = "total_sleep_time" then .num 3600
  else .undefined

/-- A row whose sleep-time cells are both explicit JS `null`. -/
def rowNullTst : Row := fun k =>
  if k = "w_total_sleep_time" then .null
  else if k = "total_sleep_time" then .null
  else .undefined

/-! ## Theorems -/

/-- C7: for every normalized row, `total_sleep_time_hours` equals
`total_sleep_time / 3600` and `sleep_efficiency_percent` equals
`sleep_efficiency × 100` whenever the respective source cell is a genuine
number, and each derived field is `null` exactly when its source cell is
not of number type. -/
theorem derived_fields_conversion (row : Row) :
    (∀ q : ℚ, row "total_sleep_time" = JVal.num q →
        total_sleep_time_hours row = JVal.num (q / 3600)) ∧
    (total_sleep_time_hours row = JVal.null ↔
        isNumberType (row "total_sleep_time") = false) ∧
    (∀ q : ℚ, row "sleep_efficiency" = JVal.num q →
        sleep_efficiency_percent row = JVal.num (q * 100)) ∧
    (sleep_efficiency_percent row = JVal.null ↔
        isNumberType (row "sleep_efficiency") = false) := by
  refine ⟨?_, ?_, ?_, ?_⟩
  · intro q h
    simp [total_sleep_time_hours, h, isNumberType, jsDiv, toNumber]
  · cases hv : row "total_sleep_time" <;>
      simp [total_sleep_time_hours, hv, isNumberType, jsDiv, toNumber]
  · intro q h
    simp [sleep_efficiency_percent, h, isNumberType, jsMul, toNumber]
  · cases hv : row "sleep_efficiency" <;>
      simp [sleep_efficiency_percent, hv, isNumberType, jsMul, toNumber]

/-- Witness for C7 at Scenario A: `25200 s` becomes `7 h` and efficiency
`0.89` becomes `89 %`. -/
theorem derived_fields_conversion_witness :
    total_sleep_time_hours rowScenarioA = JVal.num 7 ∧
    sleep_efficiency_percent rowScenarioA = JVal.num 89 := by
  have h1 := (derived_fields_conversion rowScenarioA).1 25200 rfl
  have h2 := (derived_fields_conversion rowScenarioA).2.2.1 (89 / 100) rfl
  refine ⟨h1.trans ?_, h2.trans ?_⟩ <;> norm_num

/-- C8 counterexample: a row whose `apnea_hypopnea_index` cell is an
explicit `null` (a non-numeric/missing measurement) is normalized to the
number `0`, not to `null`, because JS `Number(null) = 0`. -/
theorem ahi_null_becomes_zero :
    apnea_hypopnea_index_norm rowNullAhi = JVal.num 0 ∧
    JVal.num 0 ≠ JVal.null := by
  constructor
  · simp [apnea_hypopnea_index_norm, apnea_hypopnea_index_raw, rowNullAhi,
      jsIsNaN, toNumber]
  · simp

/-- C8 amended: the normalized AHI equals the source unchanged for a
nonnegative numeric source; it is `null` for a negative numeric source
(never clamped to `0`), for an absent (`undefined`) source, and for a `NaN`
source; an explicit `null` source coerces to the number `0`
(`Number(null) = 0`) and is kept; and the output is never a negative
number. -/
theorem ahi_normalization (row : Row) :
    (∀ q : ℚ, row "apnea_hypopnea_index" = JVal.num q → 0 ≤ q →
        apnea_hypopnea_index_norm row = JVal.num q) ∧
    (∀ q : ℚ, row "apnea_hypopnea_index" = JVal.num q → q < 0 →
        apnea_hypopnea_index_norm row = JVal.null) ∧
    (row "apnea_hypopnea_index" = JVal.undefined →
        apnea_hypopnea_index_norm row = JVal.null) ∧
    (row "apnea_hypopnea_index" = JVal.nan →
        apnea_hypopnea_index_norm row = JVal.null) ∧
    (row "apnea_hypopnea_index" = JVal.null →
        apnea_hypopnea_index_norm row = JVal.num 0) ∧
    (∀ q : ℚ, apnea_hypopnea_index_norm row = JVal.num q → 0 ≤ q) := by
  refine ⟨?_, ?_, ?_, ?_, ?_, ?_⟩
  · intro q h hq
    simp [apnea_hypopnea_index_norm, apnea_hypopnea_index_raw, h, jsIsNaN,
      toNumber, hq]
  · intro q h hq
    simp [apnea_hypopnea_index_norm, apnea_hypopnea_index_raw, h, jsIsNaN,
      toNumber, not_le.mpr hq]
  · intro h
    simp [apnea_hypopnea_index_norm, apnea_hypopnea_index_raw, h, jsIsNaN,
      toNumber]
  · intro h
    simp [apnea_hypopnea_index_norm, apnea_hypopnea_index_raw, h, jsIsNaN,
      toNumber]
  · intro h
    simp [apnea_hypopnea_index_norm, apnea_hypopnea_index_raw, h, jsIsNaN,
      toNumber]
  · intro q h
    revert h
    cases hv : row "apnea_hypopnea_index" with
    | num q' =>
        have hr : apnea_hypopnea_index_raw row = JVal.num q' := by
          simp [apnea_hypopnea_index_raw, hv, jsIsNaN, toNumber]
        simp only [apnea_hypopnea_index_norm, hr]
        by_cases hq' : 0 ≤ q'
        · rw [if_pos hq']
          intro h
          injection h with h'
          exact h' ▸ hq'
        · rw [if_neg hq']
          intro h
          exact absurd h (by simp)
    | nan =>
        have hr : apnea_hypopnea_index_raw row = JVal.num (-1) := by
          simp [apnea_hypopnea_index_raw, hv, jsIsNaN, toNumber]
        simp only [apnea_hypopnea_index_norm, hr]
        rw [if_neg (by norm_num)]
        intro h
        exact absurd h (by simp)
    | null =>
        have hr : apnea_hypopnea_index_raw row = JVal.num 0 := by
          simp [apnea_hypopnea_index_raw, hv, jsIsNaN, toNumber]
        simp only [apnea_hypopnea_index_norm, hr]
        rw [if_pos le_rfl]
        intro h
        injection h with h'
        exact h' ▸ le_rfl
    | undefined =>
        have hr : apnea_hypopnea_index_raw row = JVal.num (-1) := by
          simp [apnea_hypopnea_index_raw, hv, jsIsNaN, toNumber]
        simp only [apnea_hypopnea_index_norm, hr]
        rw [if_neg (by norm_num)]
        intro h
        exact absurd h (by simp)

/-- Witness for C8 (amended) at concrete rows: a nonnegative source passes
through, a negative one maps to `null`, a `null` one maps to `0`. -/
theorem ahi_normalization_witness :
    apnea_hypopnea_index_norm (fun _ => JVal.num 12) = JVal.num 12 ∧
    apnea_hypopnea_index_norm (fun _ => JVal.num (-3)) = JVal.null ∧
    apnea_hypopnea_index_norm rowNullAhi = JVal.num 0 :=
  ⟨(ahi_normalization (fun _ => JVal.num 12)).1 12 rfl (by norm_num),
   (ahi_normalization (fun _ => JVal.num (-3))).2.1 (-3) rfl (by norm_num),
   (ahi_normalization rowNullAhi).2.2.2.2.1 (by decide)⟩

/-- C9: the severity classifiers realize exactly the banded tables:
AHI `≤5` none/minimal, `≤15` mild, `≤30` moderate, `>30` severe; snoring
minutes `0` none, `≤15` mild, `≤30` moderate, `≤60` heavy, `>60` severe. -/
theorem severity_bands (a s : ℚ) :
    (a ≤ 5 → getOSASeverityAndColor a = ("None/Minimal", "green")) ∧
    (5 < a → a ≤ 15 → getOSASeverityAndColor a = ("Mild", "yellow")) ∧
    (15 < a → a ≤ 30 → getOSASeverityAndColor a = ("Moderate", "orange")) ∧
    (30 < a → getOSASeverityAndColor a = ("Severe", "red")) ∧
    (s = 0 → getSnoringSeverityAndColor s = ("No Snoring", "green")) ∧
    (s ≠ 0 → s ≤ 15 → getSnoringSeverityAndColor s = ("Mild", "yellow")) ∧
    (s ≠ 0 → 15 < s → s ≤ 30 →
        getSnoringSeverityAndColor s = ("Moderate", "goldenrod")) ∧
    (s ≠ 0 → 30 < s → s ≤ 60 →
        getSnoringSeverityAndColor s = ("Heavy", "orange")) ∧
    (60 < s → getSnoringSeverityAndColor s = ("Severe", "red")) := by
  refine ⟨?_, ?_, ?_, ?_, ?_, ?_, ?_, ?_, ?_⟩
  · intro h
    simp only [getOSASeverityAndColor]
    rw [if_pos h]
  · intro h1 h2
    simp only [getOSASeverityAndColor]
    rw [if_neg (by linarith), if_pos h2]
  · intro h1 h2
    simp only [getOSASeverityAndColor]
    rw [if_neg (by linarith), if_neg (by linarith), if_pos h2]
  · intro h
    simp only [getOSASeverityAndColor]
    rw [if_neg (by linarith), if_neg (by linarith), if_neg (by linarith)]
  · intro h
    simp only [getSnoringSeverityAndColor]
    rw [if_pos h]
  · intro h1 h2
    simp only [getSnoringSeverityAndColor]
    rw [if_neg h1, if_pos h2]
  · intro h1 h2 h3
    simp only [getSnoringSeverityAndColor]
    rw [if_neg h1, if_neg (by linarith), if_pos h3]
  · intro h1 h2 h3
    simp only [getSnoringSeverityAndColor]
    rw [if_neg h1, if_neg (by linarith), if_neg (by linarith), if_pos h3]
  · intro h
    simp only [getSnoringSeverityAndColor]
    rw [if_neg (by rintro rfl; linarith), if_neg (by linarith),
      if_neg (by linarith), if_neg (by linarith)]

/-- Witness for C9 at Scenario E: AHI `2, 10, 22, 40` classify as
none/minimal, mild, moderate, severe. -/
theorem severity_bands_witness :
    getOSASeverityAndColor 2 = ("None/Minimal", "green") ∧
    getOSASeverityAndColor 10 = ("Mild", "yellow") ∧
    getOSASeverityAndColor 22 = ("Moderate", "orange") ∧
    getOSASeverityAndColor 40 = ("Severe", "red") :=
  ⟨(severity_bands 2 0).1 (by norm_num),
   (severity_bands 10 0).2.1 (by norm_num) (by norm_num),
   (severity_bands 22 0).2.2.1 (by norm_num) (by norm_num),
   (severity_bands 40 0).2.2.2.1 (by norm_num)⟩

/-- C3 counterexample: running report generation on an empty
normalized-summary list is an error: `generateReport` throws
"No data found for this user to generate a report." instead of completing. -/
theorem empty_batch_throws :
    generateReportGuard [] =
      Except.error "No data found for this user to generate a report." := rfl

/-- C3 amended: `generateReport` aborts with the error
"No data found for this user to generate a report." exactly when the
normalized-summary list is empty, and passes its input check otherwise. -/
theorem empty_batch_guard (summaryData : List Row) :
    (summaryData = [] → generateReportGuard summaryData =
        Except.error "No data found for this user to generate a report.") ∧
    (summaryData ≠ [] → generateReportGuard summaryData = Except.ok ()) := by
  constructor
  · intro h
    subst h
    rfl
  · intro h
    simp [generateReportGuard, List.length_eq_zero, h]

/-- Witness for C3 (amended) at concrete inputs: the empty batch errors,
a one-row batch passes the check. -/
theorem empty_batch_guard_witness :
    generateReportGuard [] =
      Except.error "No data found for this user to generate a report." ∧
    generateReportGuard [fun _ => JVal.undefined] = Except.ok () :=
  ⟨(empty_batch_guard []).1 rfl,
   (empty_batch_guard [fun _ => JVal.undefined]).2 (by simp)⟩

/-- C1 counterexample: a summary row carrying both `total_sleep_time = 3600`
and `w_total_sleep_time = 7200` contributes the PREFIXED value `7200` to the
metrics-table aggregation, not the unprefixed `3600` the claim requires. -/
theorem prefixed_key_wins_cex :
    metricValues [rowBothKeys] "total_sleep_time" = [JVal.num 7200] ∧
    rowBothKeys "total_sleep_time" = JVal.num 3600 ∧
    JVal.num 7200 ≠ JVal.num 3600 := by
  refine ⟨rfl, rfl, ?_⟩
  intro h
  injection h with h'
  exact absurd h' (by norm_num)

/-- C1 amended: when a row has both keys, the value taken for aggregation is
the PREFIXED one — `renderMetricsTable` takes `row['w_' + field]` whenever
that key is defined and falls back to `row[field]` otherwise, keeping only
genuine numbers; `renderSummaryStats` takes the prefixed value whenever it
is truthy, and a row whose sleep-time cells are both `null` contributes `0`
to the headline duration list (the `null` coerces through `/ 3600`) rather
than being dropped. -/
theorem metric_extraction_amended (rows : List Row) (field : String) :
    (∀ r : Row, r ("w_" ++ field) ≠ JVal.undefined →
        extractMetric r field = r ("w_" ++ field)) ∧
    (∀ r : Row, r ("w_" ++ field) = JVal.undefined →
        extractMetric r field = r field) ∧
    (∀ v ∈ metricValues rows field,
        (∃ q : ℚ, v = JVal.num q) ∧ ∃ r ∈ rows, extractMetric r field = v) ∧
    (∀ d ∈ rows, truthy (d "w_total_sleep_time") = true →
        jsDiv (d "w_total_sleep_time") 3600 ∈ summaryDurations rows) ∧
    (∀ d ∈ rows, d "w_total_sleep_time" = JVal.null →
        d "total_sleep_time" = JVal.null →
        JVal.num 0 ∈ summaryDurations rows) := by
  refine ⟨?_, ?_, ?_, ?_, ?_⟩
  · intro r h
    simp [extractMetric, h]
  · intro r h
    simp [extractMetric, h]
  · intro v hv
    obtain ⟨hmem, hpred⟩ := List.mem_filter.mp hv
    obtain ⟨r, hr, hrv⟩ := List.mem_map.mp hmem
    refine ⟨?_, r, hr, hrv⟩
    cases hc : v with
    | num q => exact ⟨q, rfl⟩
    | nan => simp [hc, isNumberType, jsIsNaN, toNumber] at hpred
    | null => simp [hc, isNumberType] at hpred
    | undefined => simp [hc, isNumberType] at hpred
  · intro d hd ht
    obtain ⟨q, hq, hqne⟩ : ∃ q : ℚ, d "w_total_sleep_time" = JVal.num q ∧ q ≠ 0 := by
      cases hc : d "w_total_sleep_time" with
      | num q =>
          refine ⟨q, rfl, ?_⟩
          simpa [truthy, hc] using ht
      | nan => simp [truthy, hc] at ht
      | null => simp [truthy, hc] at ht
      | undefined => simp [truthy, hc] at ht
    refine List.mem_filter.mpr ⟨List.mem_map.mpr ⟨d, hd, ?_⟩, ?_⟩
    · rw [jsOr, if_pos ht]
    · simp [hq, jsDiv, toNumber, jsIsNaN]
  · intro d hd hw ht
    refine List.mem_filter.mpr ⟨List.mem_map.mpr ⟨d, hd, ?_⟩, ?_⟩
    · rw [jsOr, if_neg (by simp [truthy, hw]), ht, jsDiv]
      simp [toNumber]
    · simp [jsIsNaN, toNumber]

/-- Witness for C1 (amended) at concrete rows: the prefixed value `7200` is
the one extracted from a row holding both keys, and a row with `null`
sleep-time cells contributes `0` to the headline duration list. -/
theorem metric_extraction_amended_witness :
    extractMetric rowBothKeys "total_sleep_time" = JVal.num 7200 ∧
    JVal.num 0 ∈ summaryDurations [rowNullTst] := by
  constructor
  · exact ((metric_extraction_amended [] "total_sleep_time").1 rowBothKeys
      (by decide)).trans rfl
  · exact (metric_extraction_amended [rowNullTst] "total_sleep_time").2.2.2.2
      rowNullTst (List.mem_singleton.mpr rfl) rfl rfl

/-! ### Timing layout bounds (C4) -/

/-- `instantMinsFromNoon` is always in `[0, 1440)`. -/
theorem instantMinsFromNoon_bounds (t : ℕ) :
    0 ≤ instantMinsFromNoon t ∧ instantMinsFromNoon t < 1440 := by
  have hnonneg : (0 : ℤ) ≤
      (((((t / 3600) % 24 : ℕ) : ℤ) * 60 + (((t / 60) % 60 : ℕ) : ℤ)) - 720) + 1440 := by
    have h1 : (0 : ℤ) ≤ (((t / 3600) % 24 : ℕ) : ℤ) := Int.ofNat_nonneg _
    have h2 : (0 : ℤ) ≤ (((t / 60) % 60 : ℕ) : ℤ) := Int.ofNat_nonneg _
    omega
  rw [instantMinsFromNoon, minsFromNoon, Int.tmod_eq_emod hnonneg (by norm_num)]
  exact ⟨Int.emod_nonneg _ (by norm_num), Int.emod_lt_of_pos _ (by norm_num)⟩

/-- C4 counterexample: the night from epoch second `0` to epoch second
`86400` has `end_utc` strictly after `start_utc`, yet its
`duration_minutes` is `0` (both instants have the same local wall-clock
time, so no wrap adjustment fires), refuting
"`duration_minutes > 0` whenever `end_utc > start_utc`". -/
theorem timing_duration_zero_cex :
    nightDurationMinutes 0 86400 = 0 ∧ (0 : ℕ) < 86400 := by
  constructor
  · rfl
  · norm_num

/-- C4 amended: minutes-from-noon lies in `[0, 1440)` for every local
`(hour, minute)` with `0 ≤ hour ≤ 23`, `0 ≤ minute ≤ 59` (as claimed), and
`duration_minutes` is always nonnegative and is strictly positive exactly
when the raw end minutes-from-noon differs from the base — an `end_utc`
exactly a whole number of days after `start_utc` yields `0`. -/
theorem timing_layout_amended :
    (∀ hour minute : ℤ, 0 ≤ hour → hour ≤ 23 → 0 ≤ minute → minute ≤ 59 →
        0 ≤ minsFromNoon hour minute ∧ minsFromNoon hour minute < 1440) ∧
    (∀ s e : ℕ, 0 ≤ nightDurationMinutes s e) ∧
    (∀ s e : ℕ, 0 < nightDurationMinutes s e ↔
        instantMinsFromNoon e ≠ instantMinsFromNoon s) := by
  refine ⟨?_, ?_, ?_⟩
  · intro hour minute h1 h2 h3 h4
    have hnonneg : (0 : ℤ) ≤ ((hour * 60 + minute) - 720) + 1440 := by omega
    rw [minsFromNoon, Int.tmod_eq_emod hnonneg (by norm_num)]
    exact ⟨Int.emod_nonneg _ (by norm_num), Int.emod_lt_of_pos _ (by norm_num)⟩
  · intro s e
    have hs := instantMinsFromNoon_bounds s
    have he := instantMinsFromNoon_bounds e
    rw [nightDurationMinutes]
    by_cases hlt : instantMinsFromNoon e < instantMinsFromNoon s <;>
      simp only [hlt, if_true, if_false] <;> omega
  · intro s e
    have hs := instantMinsFromNoon_bounds s
    have he := instantMinsFromNoon_bounds e
    rw [nightDurationMinutes]
    by_cases hlt : instantMinsFromNoon e < instantMinsFromNoon s <;>
      simp only [hlt, if_true, if_false] <;>
      constructor <;> intro h <;> omega

/-- Witness for C4 (amended) at concrete inputs: local `13:30` maps into
`[0, 1440)`, and the night `22:00 → 06:00` (epoch seconds
`79200 → 108000`) has strictly positive duration. -/
theorem timing_layout_amended_witness :
    (0 ≤ minsFromNoon 13 30 ∧ minsFromNoon 13 30 < 1440) ∧
    0 < nightDurationMinutes 79200 108000 :=
  ⟨timing_layout_amended.1 13 30 (by norm_num) (by norm_num) (by norm_num)
      (by norm_num),
   (timing_layout_amended.2.2 79200 108000).mpr (by decide)⟩

/-! ### Wake-Episode Detector lemmas (C2, C5) -/

/-- Equation: `lastTs` on the empty list. -/
theorem lastTs_nil (d : ℤ) : lastTs d [] = d := rfl

/-- Equation: `lastTs` on a cons. -/
theorem lastTs_cons (d : ℤ) (r : ERow) (l : List ERow) :
    lastTs d (r :: l) = lastTs r.ts l := rfl

/-- Equation: the scan with no open run on the empty list. -/
theorem fweGo_none_nil (ns ne : ℤ) : fweGo ns ne none [] = [] := rfl

/-- Equation: the scan with an open run on the empty list flushes it. -/
theorem fweGo_some_nil (ns ne : ℤ) (sp : ℤ × ℤ) :
    fweGo ns ne (some sp) [] = mkClippedEpisode ns ne sp.1 sp.2 := rfl

/-- Equation: the scan with no open run on a cons. -/
theorem fweGo_none_cons (ns ne : ℤ) (r : ERow) (rest : List ERow) :
    fweGo ns ne none (r :: rest) =
      if r.state = 0 then fweGo ns ne (some (r.ts, r.ts)) rest
      else fweGo ns ne none rest := rfl

/-- Equation: the scan with an open run on a cons. -/
theorem fweGo_some_cons (ns ne : ℤ) (sp : ℤ × ℤ) (r : ERow) (rest : List ERow) :
    fweGo ns ne (some sp) (r :: rest) =
      if r.state = 0 then fweGo ns ne (some (sp.1, r.ts)) rest
      else mkClippedEpisode ns ne sp.1 sp.2 ++ fweGo ns ne none rest := rfl

/-- Equation: `awakeRuns` on the empty list. -/
theorem awakeRuns_nil : awakeRuns [] = [] := by
  simp [awakeRuns]

/-- Equation: `awakeRuns` on a cons headed by an awake row. -/
theorem awakeRuns_cons_awake (r : ERow) (rest : List ERow) (hr : r.state = 0) :
    awakeRuns (r :: rest) =
      (r :: rest.takeWhile isAwake) :: awakeRuns (rest.dropWhile isAwake) := by
  simp [awakeRuns, hr]

/-- Equation: `awakeRuns` on a cons headed by a non-awake row. -/
theorem awakeRuns_cons_sleep (r : ERow) (rest : List ERow) (hr : ¬ r.state = 0) :
    awakeRuns (r :: rest) = awakeRuns rest := by
  simp [awakeRuns, hr]

/-- A cons list always has a last element. -/
theorem exists_getLast?_cons : ∀ (l : List ERow) (a : ERow),
    ∃ z, (a :: l).getLast? = some z := by
  intro l
  induction l with
  | nil => intro a; exact ⟨a, rfl⟩
  | cons b bs ih =>
      intro a
      obtain ⟨z, hz⟩ := ih b
      exact ⟨z, (List.getLast?_cons_cons).trans hz⟩

/-- `lastTs` as a function of `getLast?`. -/
theorem lastTs_eq (l : List ERow) : ∀ d : ℤ,
    lastTs d l = (l.getLast?.map (fun r => r.ts)).getD d := by
  induction l with
  | nil => intro d; rfl
  | cons r rest ih =>
      intro d
      rw [lastTs_cons, ih r.ts]
      cases rest with
      | nil => rfl
      | cons b bs =>
          rw [List.getLast?_cons_cons]
          obtain ⟨z, hz⟩ := exists_getLast?_cons bs b
          simp [hz]

/-- The episode a run with known first and last rows contributes. -/
theorem runEpisode_head_last (ns ne : ℤ) (run : List ERow) (f l : ERow)
    (hh : run.head? = some f) (hl : run.getLast? = some l) :
    runEpisode ns ne run = mkClippedEpisode ns ne f.ts l.ts := by
  cases run with
  | nil => simp at hh
  | cons r tail =>
      obtain rfl : r = f := by simpa using hh
      show mkClippedEpisode ns ne r.ts (lastTs r.ts tail) = _
      rw [lastTs_eq]
      cases tail with
      | nil =>
          obtain rfl : r = l := by simpa using hl
          rfl
      | cons b bs =>
          rw [List.getLast?_cons_cons] at hl
          simp [hl]

/-- Scan state lemma: from an open run `(s, p)` the scan closes that run at
the last timestamp of the awake prefix and continues on the rest. -/
theorem fweGo_open (ns ne : ℤ) : ∀ (rows : List ERow) (s p : ℤ),
    fweGo ns ne (some (s, p)) rows =
      mkClippedEpisode ns ne s (lastTs p (rows.takeWhile isAwake)) ++
        fweGo ns ne none (rows.dropWhile isAwake) := by
  intro rows
  induction rows with
  | nil =>
      intro s p
      simp [fweGo_some_nil, fweGo_none_nil, lastTs_nil]
  | cons r rest ih =>
      intro s p
      by_cases hr : r.state = 0
      · have h2 : (r :: rest).takeWhile isAwake = r :: rest.takeWhile isAwake := by
          simp [List.takeWhile_cons, isAwake, hr]
        have h3 : (r :: rest).dropWhile isAwake = rest.dropWhile isAwake := by
          simp [List.dropWhile_cons, isAwake, hr]
        rw [fweGo_some_cons, if_pos hr, ih, h2, h3, lastTs_cons]
      · have h2 : (r :: rest).takeWhile isAwake = [] := by
          simp [List.takeWhile_cons, isAwake, hr]
        have h3 : (r :: rest).dropWhile isAwake = r :: rest := by
          simp [List.dropWhile_cons, isAwake, hr]
        rw [fweGo_some_cons, if_neg hr, h2, h3, lastTs_nil,
          fweGo_none_cons, if_neg hr]

/-- Characterization of the scan: the retained episodes are exactly the
clipped-and-thresholded candidates of the maximal awake runs, in order. -/
theorem fwe_eq_runs (ns ne : ℤ) : ∀ rows : List ERow,
    fweGo ns ne none rows = ((awakeRuns rows).map (runEpisode ns ne)).flatten := by
  have key : ∀ n (rows : List ERow), rows.length ≤ n →
      fweGo ns ne none rows = ((awakeRuns rows).map (runEpisode ns ne)).flatten := by
    intro n
    induction n with
    | zero =>
        intro rows hlen
        obtain rfl : rows = [] := List.length_eq_zero.mp (Nat.le_zero.mp hlen)
        simp [fweGo_none_nil, awakeRuns_nil]
    | succ n ih =>
        intro rows hlen
        cases rows with
        | nil => simp [fweGo_none_nil, awakeRuns_nil]
        | cons r rest =>
            simp only [List.length_cons, Nat.succ_le_succ_iff] at hlen
            by_cases hr : r.state = 0
            · rw [fweGo_none_cons, if_pos hr, fweGo_open,
                awakeRuns_cons_awake r rest hr,
                ih (rest.dropWhile isAwake)
                  ((List.dropWhile_sublist isAwake).length_le.trans hlen)]
              show mkClippedEpisode ns ne r.ts (lastTs r.ts (rest.takeWhile isAwake)) ++ _ = _
              rw [List.map_cons, List.flatten_cons]
              rfl
            · rw [fweGo_none_cons, if_neg hr, awakeRuns_cons_sleep r rest hr]
              exact ih rest hlen
  exact fun rows => key rows.length rows le_rfl

/-- A non-empty all-awake list is a single maximal run. -/
theorem awakeRuns_all_awake (run : List ERow) (hne : run ≠ [])
    (haw : ∀ r ∈ run, r.state = 0) : awakeRuns run = [run] := by
  cases run with
  | nil => exact absurd rfl hne
  | cons r rest =>
      rw [awakeRuns_cons_awake r rest (haw r (by simp))]
      have htw : rest.takeWhile isAwake = rest :=
        List.takeWhile_eq_self_iff.mpr fun x hx => by
          simp [isAwake, haw x (by simp [hx])]
      have hdw : rest.dropWhile isAwake = [] :=
        List.dropWhile_eq_nil_iff.mpr fun x hx => by
          simp [isAwake, haw x (by simp [hx])]
      rw [htw, hdw, awakeRuns_nil]

/-- `dropWhile` keeps the last element when that element fails the
predicate. -/
theorem dropWhile_getLast? (p : ERow → Bool) :
    ∀ (l : List ERow) (z : ERow), l.getLast? = some z → p z = false →
      (l.dropWhile p).getLast? = some z := by
  intro l
  induction l with
  | nil => simp
  | cons a t ih =>
      intro z hz hpz
      cases t with
      | nil =>
          obtain rfl : a = z := by simpa using hz
          rw [List.dropWhile_cons, if_neg (by simp [hpz])]
          rfl
      | cons b bs =>
          rw [List.getLast?_cons_cons] at hz
          rw [List.dropWhile_cons]
          by_cases hpa : p a
          · rw [if_pos hpa]
            exact ih z hz hpz
          · rw [if_neg hpa, List.getLast?_cons_cons]
            exact hz

/-- `takeWhile`/`dropWhile` do not scan past an element failing the
predicate: appending after a list containing one leaves them unchanged on
the prefix. -/
theorem takeWhile_append_of_stop (p : ERow → Bool) (l r : List ERow)
    (x : ERow) (hx : x ∈ l) (hpx : p x = false) :
    (l ++ r).takeWhile p = l.takeWhile p ∧
      (l ++ r).dropWhile p = l.dropWhile p ++ r := by
  have hnot : ¬ ∀ y ∈ l, p y = true := fun hall => by
    have h := hall x hx
    rw [h] at hpx
    exact Bool.noConfusion hpx
  constructor
  · rw [List.takeWhile_append, if_neg]
    intro hlen
    exact hnot (List.takeWhile_eq_self_iff.mp
      ((List.takeWhile_prefix p).eq_of_length hlen))
  · rw [List.dropWhile_append, if_neg]
    intro hemp
    exact hnot (List.dropWhile_eq_nil_iff.mp (List.isEmpty_iff.mp hemp))

/-- Appending a non-empty all-awake trailing run after a prefix ending in a
non-awake row adds exactly one maximal run. -/
theorem awakeRuns_append (run : List ERow) (hne : run ≠ [])
    (haw : ∀ r ∈ run, r.state = 0) :
    ∀ (pre : List ERow), (∀ x, pre.getLast? = some x → ¬ x.state = 0) →
      awakeRuns (pre ++ run) = awakeRuns pre ++ [run] := by
  have key : ∀ n (pre : List ERow), pre.length ≤ n →
      (∀ x, pre.getLast? = some x → ¬ x.state = 0) →
      awakeRuns (pre ++ run) = awakeRuns pre ++ [run] := by
    intro n
    induction n with
    | zero =>
        intro pre hlen _
        obtain rfl : pre = [] := List.length_eq_zero.mp (Nat.le_zero.mp hlen)
        simpa [awakeRuns_nil] using awakeRuns_all_awake run hne haw
    | succ n ih =>
        intro pre hlen hpre
        cases pre with
        | nil => simpa [awakeRuns_nil] using awakeRuns_all_awake run hne haw
        | cons x pre' =>
            simp only [List.length_cons, Nat.succ_le_succ_iff] at hlen
            cases pre' with
            | nil =>
                have hx : ¬ x.state = 0 := hpre x rfl
                rw [List.singleton_append, awakeRuns_cons_sleep x run hx,
                  awakeRuns_all_awake run hne haw,
                  awakeRuns_cons_sleep x [] hx, awakeRuns_nil]
                rfl
            | cons y ys =>
                have hpre' : ∀ z, (y :: ys).getLast? = some z → ¬ z.state = 0 :=
                  fun z hz => hpre z ((List.getLast?_cons_cons).trans hz)
                obtain ⟨z, hz⟩ := exists_getLast?_cons ys y
                have hzmem : z ∈ y :: ys := List.mem_of_mem_getLast? hz
                have hznot : isAwake z = false := by
                  simp [isAwake]
                  exact hpre' z hz
                have htw := (takeWhile_append_of_stop isAwake (y :: ys) run z hzmem hznot).1
                have hdw := (takeWhile_append_of_stop isAwake (y :: ys) run z hzmem hznot).2
                by_cases hx : x.state = 0
                · rw [List.cons_append, awakeRuns_cons_awake x _ hx, htw, hdw,
                    awakeRuns_cons_awake x (y :: ys) hx,
                    ih ((y :: ys).dropWhile isAwake)
                      ((List.dropWhile_sublist isAwake).length_le.trans hlen)
                      (fun w hw => by
                        rw [dropWhile_getLast? isAwake (y :: ys) z hz hznot] at hw
                        injection hw with hw'
                        exact hw' ▸ hpre' z hz)]
                  rfl
                · rw [List.cons_append, awakeRuns_cons_sleep x _ hx,
                    awakeRuns_cons_sleep x (y :: ys) hx]
                  exact ih (y :: ys) hlen hpre'
  exact fun pre => key pre.length pre le_rfl

/-- Scenario C rows: samples at `ts = 0, 300, 600, 900, 1200` with states
`0, 0, 0, 1, 1`. -/
def scenCrows : List ERow := [⟨0, 0⟩, ⟨300, 0⟩, ⟨600, 0⟩, ⟨900, 1⟩, ⟨1200, 1⟩]

/-- C5: on a night's timestamp-sorted samples the detector's output is
exactly the in-order concatenation of the candidates of the maximal awake
runs, and a maximal run lying fully inside `[ns, ne]` contributes exactly
one episode with the run's own endpoints when its span is at least 600
seconds, and none when its span is smaller. -/
theorem wake_run_correspondence (ns ne : ℤ) (rows : List ERow)
    (_hsorted : List.Sorted (fun a b : ERow => a.ts ≤ b.ts) rows) :
    findWakeEpisodesNight ns ne rows =
      ((awakeRuns rows).map (runEpisode ns ne)).flatten ∧
    ∀ run ∈ awakeRuns rows, ∀ f l : ERow,
      run.head? = some f → run.getLast? = some l → ns ≤ f.ts → l.ts ≤ ne →
        (600 ≤ l.ts - f.ts →
            runEpisode ns ne run = [⟨f.ts, l.ts, l.ts - f.ts⟩]) ∧
        (l.ts - f.ts < 600 → runEpisode ns ne run = []) := by
  refine ⟨fwe_eq_runs ns ne rows, ?_⟩
  intro run _ f l hh hl hf hle
  have hre := runEpisode_head_last ns ne run f l hh hl
  have hcs : (if f.ts < ns then ns else f.ts) = f.ts := if_neg (not_lt.mpr hf)
  have hce : (if l.ts > ne then ne else l.ts) = l.ts := if_neg (not_lt.mpr hle)
  constructor
  · intro hdur
    rw [hre, mkClippedEpisode]
    simp only [hcs, hce]
    rw [if_pos hdur]
  · intro hdur
    rw [hre, mkClippedEpisode]
    simp only [hcs, hce]
    rw [if_neg (not_le.mpr hdur)]

/-- The maximal awake runs of the Scenario C sample list. -/
theorem awakeRuns_scenC : awakeRuns scenCrows = [[⟨0, 0⟩, ⟨300, 0⟩, ⟨600, 0⟩]] := by
  show awakeRuns [⟨0, 0⟩, ⟨300, 0⟩, ⟨600, 0⟩, ⟨900, 1⟩, ⟨1200, 1⟩] = _
  rw [awakeRuns_cons_awake _ _ rfl]
  have htw : List.takeWhile isAwake [⟨300, 0⟩, ⟨600, 0⟩, ⟨900, 1⟩, ⟨1200, 1⟩] =
      [⟨300, 0⟩, ⟨600, 0⟩] := by decide
  have hdw : List.dropWhile isAwake [⟨300, 0⟩, ⟨600, 0⟩, ⟨900, 1⟩, ⟨1200, 1⟩] =
      [⟨900, 1⟩, ⟨1200, 1⟩] := by decide
  rw [htw, hdw, awakeRuns_cons_sleep _ _ (by decide),
    awakeRuns_cons_sleep _ _ (by decide), awakeRuns_nil]

/-- Witness for C5 at Scenario C: night `[0, 1200]`, states `0,0,0,1,1` at
`ts = 0,300,600,900,1200` yield the single episode `[0, 600]` with
`duration_seconds = 600` (boundary-inclusive, retained). -/
theorem wake_run_correspondence_witness :
    findWakeEpisodesNight 0 1200 scenCrows = [⟨0, 600, 600⟩] := by
  have h := (wake_run_correspondence 0 1200 scenCrows (by decide)).1
  rw [h, awakeRuns_scenC]
  decide

/-- C2 counterexample: the night `[0, 2000]` whose samples
`ts = 0, 300` are all awake ends in a trailing awake run; the claim's
provisional end (`end_utc = 2000`) would give a clipped duration of
`2000 ≥ 600` and hence one retained episode, but the code ends the episode
at the last sample (`ts = 300`), so the clipped duration is `300 < 600` and
the output is empty. -/
theorem trailing_wake_cex :
    findWakeEpisodesNight 0 2000 [⟨0, 0⟩, ⟨300, 0⟩] = [] ∧
    (600 : ℤ) ≤ 2000 - 0 := by
  constructor
  · rfl
  · norm_num

/-- C2 amended: for a night whose sorted samples end in a maximal trailing
awake run, the detector takes the episode's provisional end to be the
timestamp of the LAST SAMPLE (the last awake sample), not the night's
`end_utc`; both endpoints are then clipped into `[ns, ne]` and the episode
is retained exactly when the clipped duration is at least 600 seconds. -/
theorem trailing_wake_amended (ns ne : ℤ) (pre run : List ERow)
    (hne : run ≠ []) (haw : ∀ r ∈ run, r.state = 0)
    (hpre : ∀ x, pre.getLast? = some x → ¬ x.state = 0) :
    findWakeEpisodesNight ns ne (pre ++ run) =
      findWakeEpisodesNight ns ne pre ++ runEpisode ns ne run ∧
    ∀ f l : ERow, run.head? = some f → run.getLast? = some l →
      runEpisode ns ne run =
        (if 600 ≤ (if l.ts > ne then ne else l.ts) - (if f.ts < ns then ns else f.ts)
         then [⟨(if f.ts < ns then ns else f.ts), (if l.ts > ne then ne else l.ts),
               (if l.ts > ne then ne else l.ts) - (if f.ts < ns then ns else f.ts)⟩]
         else []) := by
  constructor
  · show fweGo ns ne none (pre ++ run) = fweGo ns ne none pre ++ _
    rw [fwe_eq_runs, fwe_eq_runs, awakeRuns_append run hne haw pre hpre]
    rw [List.map_append, List.flatten_append]
    simp
  · intro f l hh hl
    rw [runEpisode_head_last ns ne run f l hh hl]
    rfl

/-- Witness for C2 (amended) at a concrete night: `[0, 2000]` with a
non-awake sample at `ts = 0` followed by the trailing awake run
`ts = 300, 900`; the episode is `[300, 900]`, ending at the last sample. -/
theorem trailing_wake_amended_witness :
    findWakeEpisodesNight 0 2000 ([⟨0, 1⟩] ++ [⟨300, 0⟩, ⟨900, 0⟩]) =
      findWakeEpisodesNight 0 2000 [⟨0, 1⟩] ++
        runEpisode 0 2000 [⟨300, 0⟩, ⟨900, 0⟩] ∧
    runEpisode 0 2000 [⟨300, 0⟩, ⟨900, 0⟩] = [⟨300, 900, 600⟩] := by
  have h := trailing_wake_amended 0 2000 [⟨0, 1⟩] [⟨300, 0⟩, ⟨900, 0⟩]
    (by decide) (by decide)
    (fun x hx => by
      have hx' : x = (⟨0, 1⟩ : ERow) := by simpa using hx.symm
      rw [hx']
      decide)
  refine ⟨h.1, ?_⟩
  rw [h.2 ⟨300, 0⟩ ⟨900, 0⟩ rfl rfl]
  decide

/-! ### Epoch Flattener lemmas (C6, C10) -/

/-- `find?` returns the first match: the list splits at the found element
with every earlier element failing the predicate. -/
theorem find?_split {α : Type} (p : α → Bool) :
    ∀ (l : List α) (a : α), l.find? p = some a →
      ∃ pre post, l = pre ++ a :: post ∧ ∀ x ∈ pre, p x = false := by
  intro l
  induction l with
  | nil => simp
  | cons x xs ih =>
      intro a h
      by_cases hx : p x
      · rw [List.find?_cons_of_pos _ hx] at h
        obtain rfl : x = a := by simpa using h
        exact ⟨[], xs, rfl, by simp⟩
      · rw [List.find?_cons_of_neg _ (by simpa using hx)] at h
        obtain ⟨pre, post, rfl, hpre⟩ := ih a h
        refine ⟨x :: pre, post, rfl, ?_⟩
        intro y hy
        rcases List.mem_cons.mp hy with rfl | hy'
        · simpa using hx
        · exact hpre y hy'

/-- Every sample a segment emits carries the night id and timezone it was
called with. -/
theorem processSegment_mem_id (id : ℤ) (tz : String) (seg : Segment) :
    ∀ e ∈ processSegment id tz seg, e.id = id ∧ e.timezone = tz := by
  intro e he
  cases href : refFieldOf seg with
  | none => simp [processSegment, href] at he
  | some kv =>
      simp only [processSegment, href] at he
      obtain ⟨p, _, rfl⟩ := List.mem_map.mp he
      exact ⟨rfl, rfl⟩

/-- C6: a segment with at least one present, non-empty metric field emits
exactly one sample per timestamp key of its reference field — the first
field in object enumeration order that is a known metric field with a
non-empty map — and each sample carries, for every known metric field, that
field's value at the sample's timestamp or null; a segment with no
non-empty metric field emits nothing. -/
theorem epoch_flattener_segment (id : ℤ) (tz : String) (seg : Segment) :
    (∀ k m, refFieldOf seg = some (k, m) →
        processSegment id tz seg =
          m.map (fun p => mkSample id tz seg.state seg p.1) ∧
        (processSegment id tz seg).map (fun s => s.timestamp) =
          m.map (fun p => p.1) ∧
        (dataFields.contains k = true ∧ m ≠ [] ∧
          ∃ pre post, seg.fields = pre ++ (k, m) :: post ∧
            ∀ kv ∈ pre, ¬(dataFields.contains kv.1 = true ∧ kv.2 ≠ [])) ∧
        ∀ s ∈ processSegment id tz seg,
          s.id = id ∧ s.state = seg.state ∧
          s.vals = dataFields.map (fun f => (f, valueAt seg f s.timestamp))) ∧
    (refFieldOf seg = none ↔
        ∀ kv ∈ seg.fields, ¬(dataFields.contains kv.1 = true ∧ kv.2 ≠ [])) ∧
    (refFieldOf seg = none → processSegment id tz seg = []) := by
  refine ⟨?_, ?_, ?_⟩
  · intro k m h
    have hps : processSegment id tz seg =
        m.map (fun p => mkSample id tz seg.state seg p.1) := by
      simp [processSegment, h]
    have hpred := List.find?_some h
    rw [Bool.and_eq_true] at hpred
    obtain ⟨hc, hn⟩ := hpred
    have hmne : m ≠ [] := by
      intro hm
      rw [hm] at hn
      exact Bool.noConfusion hn
    refine ⟨hps, ?_, ⟨hc, hmne, ?_⟩, ?_⟩
    · rw [hps, List.map_map]
      rfl
    · obtain ⟨pre, post, heq, hpre⟩ := find?_split _ seg.fields (k, m) h
      refine ⟨pre, post, heq, ?_⟩
      intro kv hkv
      intro ⟨hkv1, hkv2⟩
      have hfail := hpre kv hkv
      rw [hkv1] at hfail
      simp only [Bool.true_and] at hfail
      have hemp : kv.2.isEmpty = true := by
        cases hm : kv.2.isEmpty
        · rw [hm] at hfail
          exact Bool.noConfusion hfail
        · rfl
      exact hkv2 (List.isEmpty_iff.mp hemp)
    · intro s hs
      rw [hps] at hs
      obtain ⟨p, _, rfl⟩ := List.mem_map.mp hs
      exact ⟨rfl, rfl, rfl⟩
  · rw [refFieldOf, List.find?_eq_none]
    constructor
    · intro h kv hkv
      intro ⟨h1, h2⟩
      apply h kv hkv
      rw [Bool.and_eq_true]
      refine ⟨h1, ?_⟩
      cases hm : kv.2.isEmpty
      · rfl
      · exact absurd (List.isEmpty_iff.mp hm) h2
    · intro h kv hkv hb
      rw [Bool.and_eq_true] at hb
      obtain ⟨h1, h2⟩ := hb
      refine h kv hkv ⟨h1, ?_⟩
      intro hm
      rw [hm] at h2
      exact Bool.noConfusion h2
  · intro h
    simp [processSegment, h]

/-- Scenario B segment: `state = 1`, `hr = {"100": 60, "160": 62}`,
`rr = {"100": 14}`. -/
def segScenarioB : Segment :=
  ⟨1, [("hr", [(100, 60), (160, 62)]), ("rr", [(100, 14)])]⟩

/-- Witness for C6 at Scenario B: the segment emits exactly the two samples
`(ts=100, hr=60, rr=14)` and `(ts=160, hr=62, rr=null)`, all other metric
fields null. -/
theorem epoch_flattener_segment_witness :
    processSegment 7 "Europe/Paris" segScenarioB =
      [⟨7, "Europe/Paris", 100, 1,
        [("hr", some 60), ("rr", some 14), ("snoring", none), ("sdnn_1", none),
         ("rmssd", none), ("mvt_score", none), ("chest_movement_rate", none),
         ("withings_index", none), ("breathing_sounds", none)]⟩,
       ⟨7, "Europe/Paris", 160, 1,
        [("hr", some 62), ("rr", none), ("snoring", none), ("sdnn_1", none),
         ("rmssd", none), ("mvt_score", none), ("chest_movement_rate", none),
         ("withings_index", none), ("breathing_sounds", none)]⟩] := by
  have h := ((epoch_flattener_segment 7 "Europe/Paris" segScenarioB).1
    "hr" [(100, 60), (160, 62)] (by decide)).1
  exact h.trans (by decide)

/-- C10: the Epoch Flattener never emits an orphan sample — every emitted
sample's id has a matching summary row — and records whose `sleep_id`
matches no summary row contribute nothing (removing them leaves the output
unchanged). -/
theorem no_orphan_samples (records : List EpochRecord) (summary : List PSRow) :
    (∀ e ∈ processEpochData records summary, ∃ s ∈ summary, s.id = e.id) ∧
    processEpochData records summary =
      processEpochData
        (records.filter (fun r => (summaryLookup summary r.sleep_id).isSome))
        summary := by
  constructor
  · intro e he
    simp only [processEpochData] at he
    obtain ⟨l, hl, hel⟩ := List.mem_flatten.mp he
    obtain ⟨record, hrec, rfl⟩ := List.mem_map.mp hl
    cases hmatch : summaryLookup summary record.sleep_id with
    | none => simp [processRecord, hmatch] at hel
    | some s0 =>
        simp only [processRecord, hmatch] at hel
        obtain ⟨l2, hl2, hel2⟩ := List.mem_flatten.mp hel
        obtain ⟨seg, _, rfl⟩ := List.mem_map.mp hl2
        have hid := (processSegment_mem_id record.sleep_id s0.timezone seg e hel2).1
        simp only [summaryLookup] at hmatch
        have hs0 : s0 ∈ summary := List.mem_reverse.mp (List.mem_of_find?_eq_some hmatch)
        have hs0id : s0.id = record.sleep_id := by
          simpa using List.find?_some hmatch
        exact ⟨s0, hs0, by rw [hs0id, hid]⟩
  · induction records with
    | nil => rfl
    | cons r rest ih =>
        by_cases hr : (summaryLookup summary r.sleep_id).isSome
        · rw [List.filter_cons_of_pos (by simpa using hr)]
          simp only [processEpochData, List.map_cons, List.flatten_cons]
          rw [show ((rest.map (processRecord summary)).flatten : List EpochSample) =
              processEpochData rest summary from rfl,
            show (((rest.filter (fun r => (summaryLookup summary r.sleep_id).isSome)).map
                (processRecord summary)).flatten : List EpochSample) =
              processEpochData
                (rest.filter (fun r => (summaryLookup summary r.sleep_id).isSome))
                summary from rfl, ih]
        · have hnone : summaryLookup summary r.sleep_id = none :=
            Option.not_isSome_iff_eq_none.mp hr
          rw [List.filter_cons_of_neg (by simpa using hr)]
          simp only [processEpochData, List.map_cons, List.flatten_cons,
            processRecord, hnone]
          simpa [processEpochData] using ih

/-- Summary rows for the C10 witness. -/
def sumW : List PSRow := [⟨1, "UTC"⟩]

/-- Epoch records for the C10 witness: record `1` is matched by the summary
row, record `2` is an orphan. -/
def recsW : List EpochRecord := [⟨1, [segScenarioB]⟩, ⟨2, [segScenarioB]⟩]

/-- Witness for C10 at concrete data: the first sample emitted for the
matched record has a summary row with its id, and dropping the orphan
record `2` leaves the output unchanged. -/
theorem no_orphan_samples_witness :
    (∃ s ∈ sumW, s.id =
      (⟨1, "UTC", 100, 1,
        [("hr", some 60), ("rr", some 14), ("snoring", none), ("sdnn_1", none),
         ("rmssd", none), ("mvt_score", none), ("chest_movement_rate", none),
         ("withings_index", none), ("breathing_sounds", none)]⟩ : EpochSample).id) ∧
    processEpochData recsW sumW = processEpochData [⟨1, [segScenarioB]⟩] sumW := by
  have h := no_orphan_samples recsW sumW
  exact ⟨h.1 _ (by decide), h.2.trans (by decide)⟩

end WithingsReport
